import Mathlib

/-!
# Ethereum JSON-RPC client: `eth/client.go`

A shallow embedding of `Client.CallMethod` and of the types it works on
(`Client`, `Request`, `ResponseBase`, `ObjectError`), followed by theorems about
the identifiers it assigns, the error it returns and what it writes to the
caller's destination.

The Go standard library (`encoding/json`, `net/http`, `io/ioutil`) is not part
of the repository.  What those calls do during one invocation is a parameter of
the embedding (`World`); a small JSON reader (`jsonWorld`) instantiates it for
the wire scenarios.
-/

namespace Eth

/-! ## Data model -/

/-- Go `[]byte`, kept as the characters of the text it holds. -/
abbrev Bytes := List Char

/-- A Go `interface{}` value as far as the wire encoding sees it. -/
inductive Value where
  | null : Value
  | bool (b : Bool) : Value
  | num (n : Int) : Value
  | str (s : String) : Value
  | arr (xs : List Value) : Value
  | obj (kvs : List (String × Value)) : Value

/-- `type ObjectError struct { Code int64; Message string; Data interface{} }`. -/
structure ObjectError where
  Code : Int
  Message : String
  Data : Value

/-- `func (e *ObjectError) Error() string { return e.Message }`. -/
def ObjectError.Error (e : ObjectError) : String :=
  e.Message

/-- A non-nil Go `error` value: either a `*ObjectError`, or an error made by
`errors.New` or by a library, which only exposes its text. -/
inductive GoError where
  | object (e : ObjectError) : GoError
  | text (msg : String) : GoError

/-- The `Error()` method of the `error` interface. -/
def GoError.Error : GoError → String
  | .object e => e.Error
  | .text msg => msg

/-- `errors.New(msg)`. -/
def errorsNew (msg : String) : GoError :=
  .text msg

/-- `type Request struct { JSONRPC string; Method string; ID int64; Params []interface{} }`. -/
structure Request where
  JSONRPC : String
  Method : String
  ID : Int
  Params : List Value

/-- `type ResponseBase struct { JSONRPC string; ID int64; Error *ObjectError;
Result json.RawMessage }`.  A nil `Error` pointer is `none`; a nil `Result` is
the empty byte slice. -/
structure ResponseBase where
  JSONRPC : String
  ID : Int
  Error : Option ObjectError
  Result : Bytes

/-- The body of an `*http.Response`: what `ioutil.ReadAll` obtains from it, the
bytes read and the error (if any) that ended the read. -/
structure Body where
  data : Bytes
  err : Option GoError

/-- The part of `*http.Response` that `CallMethod` touches. -/
structure Response where
  Body : Body

/-- `ioutil.ReadAll(r)`: the bytes read and the read error. -/
def ReadAll (r : Body) : Bytes × Option GoError :=
  (r.data, r.err)

/-- An opaque `*http.Client`. -/
structure HTTPClient where
  handle : Nat
deriving DecidableEq

/-- `http.DefaultClient`. -/
def DefaultClient : HTTPClient :=
  ⟨0⟩

/-- The pair `(resp *http.Response, err error)` returned by `(*http.Client).Post`.
`net/http` returns a non-nil response with a non-nil body whenever the error is
nil; with a non-nil error the response may or may not be nil. -/
inductive PostResult where
  | ok (w : Response) : PostResult
  | fail (w : Option Response) (e : GoError) : PostResult

/-- What the standard library does during one invocation of `CallMethod` with a
destination of type `D`: `json.Marshal` of the request, `httpClient.Post`,
`json.Unmarshal` into a `ResponseBase`, and `json.Unmarshal` into the
destination (which may write to it and may report an error). -/
structure World (D : Type) where
  Marshal : Request → Except GoError Bytes
  Post : HTTPClient → String → String → Bytes → PostResult
  UnmarshalBase : Bytes → Except GoError ResponseBase
  Unmarshal : Bytes → D → D × Option GoError

/-- `type Client struct { url string; httpClient *http.Client; id int64;
idLock sync.Mutex }`.  The mutex is free whenever no `CallMethod` is running
and carries no data, so the sequential state is the other three fields. -/
structure Client where
  url : String
  httpClient : HTTPClient
  id : Int

/-- Two's-complement wrap-around of Go's `int64` arithmetic. -/
def wrapInt64 (x : Int) : Int :=
  (x + 2 ^ 63) % 2 ^ 64 - 2 ^ 63

/-- `math.MaxInt64`. -/
def maxInt64 : Int :=
  2 ^ 63 - 1

/-- `math.MinInt64`. -/
def minInt64 : Int :=
  -(2 ^ 63)

/-- `const _VER_ = "2.0"`. -/
def _VER_ : String :=
  "2.0"

/-- `NewClient(url, httpClient)`: a nil `httpClient` is replaced by
`http.DefaultClient`; the counter starts at the zero value. -/
def NewClient (url : String) (httpClient : Option HTTPClient) : Client :=
  match httpClient with
  | none => { url := url, httpClient := DefaultClient, id := 0 }
  | some h => { url := url, httpClient := h, id := 0 }

/-- The observable steps of one `CallMethod`, in program order. -/
inductive Event where
  | lock : Event
  | unlock : Event
  | marshal : Event
  | post : Event
  | readAll : Event
  | unmarshalBase : Event
  | unmarshalResult : Event
  | closeBody : Event
deriving DecidableEq, Repr

/-- What one `CallMethod` leaves behind.
* `req`: the request built under the lock;
* `ret`: the returned `error` (the function-level variable `e`), `none` for nil;
* `inner`: the last value of the variable `e` that `b, e := ioutil.ReadAll(..)`
  declares inside the loop body (`none` if nil or never declared);
* `dest`: the value behind the destination pointer `v` after the call;
* `trace`: the steps taken, the deferred `w.Body.Close()` last. -/
structure Outcome (D : Type) where
  req : Request
  ret : Option GoError
  inner : Option GoError
  dest : D
  trace : List Event

/-- The deferred `w.Body.Close()`, registered only `if w != nil`. -/
def deferred (w : Option Response) : List Event :=
  match w with
  | none => []
  | some _ => [Event.closeBody]

/-- `func (c *Client) CallMethod(v interface{}, method string, params ...interface{}) error`.
Returns the client after the call and what the call leaves behind.

Under the lock the counter is incremented (`c.id++`, in `int64`) and the request
is built with the new value.  The `for { ... }` that follows is left by `break`
in its first iteration on every path, and then `return e` runs.

The function-level `e` is assigned by `json.Marshal` and by `Post` only: the
statement `b, e := ioutil.ReadAll(w.Body)` redeclares `b` (declared in the same
block) and declares a new `e` in the loop body, and every later `e = ...` in
the loop assigns that inner variable. -/
def CallMethod {D : Type} (W : World D) (c : Client) (v : D) (method : String)
    (params : List Value) : Client × Outcome D :=
  -- c.idLock.Lock(); c.id++; req := Request{...}; c.idLock.Unlock()
  let c1 : Client := { c with id := wrapInt64 (c.id + 1) }
  let req : Request := { JSONRPC := _VER_, Method := method, ID := c1.id, Params := params }
  let pre := [Event.lock, Event.unlock, Event.marshal]
  -- b, e = json.Marshal(req)
  match W.Marshal req with
  | .error e =>
    (c1, { req := req, ret := some e, inner := none, dest := v, trace := pre })
  | .ok b =>
    -- w, e = c.httpClient.Post(c.url, "application/json", bytes.NewReader(b))
    match W.Post c1.httpClient c1.url "application/json" b with
    | .fail w e =>
      (c1, { req := req, ret := some e, inner := none, dest := v,
             trace := pre ++ [Event.post] ++ deferred w })
    | .ok w =>
      -- the function-level e is nil from here on
      let e : Option GoError := none
      -- b, e := ioutil.ReadAll(w.Body)
      match ReadAll w.Body with
      | (_, some e1) =>
        (c1, { req := req, ret := e, inner := some e1, dest := v,
               trace := pre ++ [Event.post, Event.readAll, Event.closeBody] })
      | (b1, none) =>
        -- e = json.Unmarshal(b, &parsed)
        match W.UnmarshalBase b1 with
        | .error e1 =>
          (c1, { req := req, ret := e, inner := some e1, dest := v,
                 trace := pre ++ [Event.post, Event.readAll, Event.unmarshalBase,
                   Event.closeBody] })
        | .ok parsed =>
          -- if parsed.Error != nil { e = parsed.Error; break }
          match parsed.Error with
          | some oe =>
            (c1, { req := req, ret := e, inner := some (GoError.object oe), dest := v,
                   trace := pre ++ [Event.post, Event.readAll, Event.unmarshalBase,
                     Event.closeBody] })
          | none =>
            if parsed.ID ≠ req.ID ∨ parsed.JSONRPC ≠ _VER_ then
              (c1, { req := req, ret := e,
                     inner := some (errorsNew "Error: RPC Specification error"),
                     dest := v,
                     trace := pre ++ [Event.post, Event.readAll, Event.unmarshalBase,
                       Event.closeBody] })
            else
              -- e = json.Unmarshal(parsed.Result, v)
              let r := W.Unmarshal parsed.Result v
              (c1, { req := req, ret := e, inner := r.2, dest := r.1,
                     trace := pre ++ [Event.post, Event.readAll, Event.unmarshalBase,
                       Event.unmarshalResult, Event.closeBody] })

/-- One invocation to be made on a client: the destination type and value, the
method and parameters, and what the library does during that invocation. -/
structure Call where
  D : Type
  W : World D
  v : D
  method : String
  params : List Value

/-- The ids of the requests built by a run of invocations made one after the
other on the same client, in order. -/
def callIDs (c : Client) : List Call → List Int
  | [] => []
  | k :: ks =>
    let r := CallMethod k.W c k.v k.method k.params
    r.2.req.ID :: callIDs r.1 ks

/-! ## A JSON reader and writer for the wire scenarios

An instance of `World` for destinations of Go type `string`.  It reads JSON
with integer numbers and the simple escapes, matches object keys exactly, and
keeps `result` as the raw bytes of its value, like `json.RawMessage`. -/

namespace JSON

def isSpace (c : Char) : Bool :=
  c.toNat = 32 || c.toNat = 9 || c.toNat = 10 || c.toNat = 13

def skipSpace : Bytes → Bytes
  | [] => []
  | c :: cs => if isSpace c then skipSpace cs else c :: cs

def isDigit (c : Char) : Bool :=
  decide (48 ≤ c.toNat) && decide (c.toNat ≤ 57)

def readDigits : Nat → Bytes → Nat × Bytes
  | acc, [] => (acc, [])
  | acc, c :: cs =>
    if isDigit c then readDigits (10 * acc + (c.toNat - 48)) cs else (acc, c :: cs)

/-- An optional minus sign followed by at least one digit. -/
def readNumber : Bytes → Option (Int × Bytes)
  | [] => none
  | c :: cs =>
    if c.toNat = 45 then
      match cs with
      | [] => none
      | d :: _ =>
        if isDigit d then
          let r := readDigits 0 cs
          some (-(r.1 : Int), r.2)
        else none
    else if isDigit c then
      let r := readDigits 0 (c :: cs)
      some ((r.1 : Int), r.2)
    else none

/-- The character an escape letter stands for. -/
def unescape (c : Char) : Option Char :=
  if c.toNat = 34 then some c
  else if c.toNat = 92 then some c
  else if c.toNat = 47 then some c
  else if c.toNat = 110 then some (Char.ofNat 10)
  else if c.toNat = 116 then some (Char.ofNat 9)
  else if c.toNat = 114 then some (Char.ofNat 13)
  else none

/-- The rest of a string literal, after its opening quote. -/
def readString : Bytes → List Char → Option (String × Bytes)
  | [], _ => none
  | [c], acc => if c.toNat = 34 then some (String.mk acc.reverse, []) else none
  | c :: d :: ds, acc =>
    if c.toNat = 34 then some (String.mk acc.reverse, d :: ds)
    else if c.toNat = 92 then
      match unescape d with
      | some x => readString ds (x :: acc)
      | none => none
    else readString (d :: ds) (c :: acc)

/-- Removes the literal `lit` from the front of the input. -/
def dropLit : Bytes → Bytes → Option Bytes
  | [], s => some s
  | _ :: _, [] => none
  | l :: ls, c :: cs => if l = c then dropLit ls cs else none

mutual

/-- One JSON value, after optional white space. -/
def readValue : Nat → Bytes → Option (Value × Bytes)
  | 0, _ => none
  | fuel + 1, s =>
    match skipSpace s with
    | [] => none
    | c :: cs =>
      if c.toNat = 34 then
        match readString cs [] with
        | some (t, rest) => some (Value.str t, rest)
        | none => none
      else if c.toNat = 123 then
        match skipSpace cs with
        | [] => none
        | d :: ds =>
          if d.toNat = 125 then some (Value.obj [], ds)
          else readMembers fuel (d :: ds) []
      else if c.toNat = 91 then
        match skipSpace cs with
        | [] => none
        | d :: ds =>
          if d.toNat = 93 then some (Value.arr [], ds)
          else readElems fuel (d :: ds) []
      else if c.toNat = 116 then
        match dropLit "true".toList (c :: cs) with
        | some rest => some (Value.bool true, rest)
        | none => none
      else if c.toNat = 102 then
        match dropLit "false".toList (c :: cs) with
        | some rest => some (Value.bool false, rest)
        | none => none
      else if c.toNat = 110 then
        match dropLit "null".toList (c :: cs) with
        | some rest => some (Value.null, rest)
        | none => none
      else
        match readNumber (c :: cs) with
        | some (n, rest) => some (Value.num n, rest)
        | none => none

/-- The elements of an array up to and including the closing bracket. -/
def readElems : Nat → Bytes → List Value → Option (Value × Bytes)
  | 0, _, _ => none
  | fuel + 1, s, acc =>
    match readValue fuel s with
    | none => none
    | some (x, rest) =>
      match skipSpace rest with
      | [] => none
      | c :: cs =>
        if c.toNat = 44 then readElems fuel cs (x :: acc)
        else if c.toNat = 93 then some (Value.arr (x :: acc).reverse, cs)
        else none

/-- The members of an object up to and including the closing brace. -/
def readMembers : Nat → Bytes → List (String × Value) → Option (Value × Bytes)
  | 0, _, _ => none
  | fuel + 1, s, acc =>
    match skipSpace s with
    | [] => none
    | q :: r0 =>
      if q.toNat = 34 then
        match readString r0 [] with
        | none => none
        | some (k, r1) =>
          match skipSpace r1 with
          | [] => none
          | col :: r2 =>
            if col.toNat = 58 then
              match readValue fuel r2 with
              | none => none
              | some (x, r3) =>
                match skipSpace r3 with
                | [] => none
                | c :: cs =>
                  if c.toNat = 44 then readMembers fuel cs ((k, x) :: acc)
                  else if c.toNat = 125 then some (Value.obj ((k, x) :: acc).reverse, cs)
                  else none
            else none
      else none

end

/-- The members of the top-level object of a response, each with the raw bytes
of its value, up to and including the closing brace. -/
def readFields : Nat → Bytes → List (String × Value × Bytes) →
    Option (List (String × Value × Bytes) × Bytes)
  | 0, _, _ => none
  | fuel + 1, s, acc =>
    match skipSpace s with
    | [] => none
    | q :: r0 =>
      if q.toNat = 34 then
        match readString r0 [] with
        | none => none
        | some (k, r1) =>
          match skipSpace r1 with
          | [] => none
          | col :: r2 =>
            if col.toNat = 58 then
              let r3 := skipSpace r2
              match readValue (2 * r3.length + 2) r3 with
              | none => none
              | some (x, r4) =>
                let raw := r3.take (r3.length - r4.length)
                match skipSpace r4 with
                | [] => none
                | c :: cs =>
                  if c.toNat = 44 then readFields fuel cs ((k, x, raw) :: acc)
                  else if c.toNat = 125 then some (((k, x, raw) :: acc).reverse, cs)
                  else none
            else none
      else none

def syntaxError : GoError :=
  GoError.text "invalid character in JSON input"

def endError : GoError :=
  GoError.text "unexpected end of JSON input"

def typeError (field : String) : GoError :=
  GoError.text ("json: cannot unmarshal value into Go value of field " ++ field)

def inInt64 (n : Int) : Bool :=
  decide (minInt64 ≤ n) && decide (n ≤ maxInt64)

/-- Stores one member of an `error` object into an `ObjectError`. -/
def setErrorField (oe : ObjectError) (kv : String × Value) : Except GoError ObjectError :=
  if kv.1 = "code" then
    match kv.2 with
    | Value.num n => if inInt64 n then .ok { oe with Code := n } else .error (typeError "code")
    | Value.null => .ok oe
    | _ => .error (typeError "code")
  else if kv.1 = "message" then
    match kv.2 with
    | Value.str t => .ok { oe with Message := t }
    | Value.null => .ok oe
    | _ => .error (typeError "message")
  else if kv.1 = "data" then .ok { oe with Data := kv.2 }
  else .ok oe

/-- Stores one member of the response object into a `ResponseBase`. -/
def setBaseField (r : ResponseBase) (f : String × Value × Bytes) :
    Except GoError ResponseBase :=
  if f.1 = "jsonrpc" then
    match f.2.1 with
    | Value.str t => .ok { r with JSONRPC := t }
    | Value.null => .ok r
    | _ => .error (typeError "jsonrpc")
  else if f.1 = "id" then
    match f.2.1 with
    | Value.num n => if inInt64 n then .ok { r with ID := n } else .error (typeError "id")
    | Value.null => .ok r
    | _ => .error (typeError "id")
  else if f.1 = "error" then
    match f.2.1 with
    | Value.obj kvs =>
      match kvs.foldlM setErrorField (r.Error.getD ⟨0, "", Value.null⟩) with
      | .ok oe => .ok { r with Error := some oe }
      | .error e => .error e
    | Value.null => .ok { r with Error := none }
    | _ => .error (typeError "error")
  else if f.1 = "result" then .ok { r with Result := f.2.2 }
  else .ok r

/-- `json.Unmarshal(b, &parsed)` for a zero-valued `parsed ResponseBase`. -/
def unmarshalBase (b : Bytes) : Except GoError ResponseBase :=
  let zero : ResponseBase := { JSONRPC := "", ID := 0, Error := none, Result := [] }
  match skipSpace b with
  | [] => .error endError
  | c :: cs =>
    if c.toNat = 123 then
      match skipSpace cs with
      | [] => .error endError
      | d :: ds =>
        if d.toNat = 125 then
          if (skipSpace ds).isEmpty then .ok zero else .error syntaxError
        else
          match readFields (cs.length + 1) (d :: ds) [] with
          | none => .error syntaxError
          | some (fs, rest) =>
            if (skipSpace rest).isEmpty then fs.foldlM setBaseField zero
            else .error syntaxError
    else
      match readValue (2 * cs.length + 4) (c :: cs) with
      | some (Value.null, rest) =>
        if (skipSpace rest).isEmpty then .ok zero else .error syntaxError
      | some (_, rest) =>
        if (skipSpace rest).isEmpty then .error (typeError "ResponseBase")
        else .error syntaxError
      | none => .error syntaxError

/-- `json.Unmarshal(raw, v)` for `v` of type `*string`: a JSON string is stored,
`null` leaves the destination as it is, anything else is an error. -/
def unmarshalString (raw : Bytes) (v : String) : String × Option GoError :=
  match skipSpace raw with
  | [] => (v, some endError)
  | c :: cs =>
    match readValue (2 * cs.length + 4) (c :: cs) with
    | none => (v, some syntaxError)
    | some (x, rest) =>
      if (skipSpace rest).isEmpty then
        match x with
        | Value.str t => (t, none)
        | Value.null => (v, none)
        | _ => (v, some (typeError "string"))
      else (v, some syntaxError)

/-- A string literal, with quote and backslash escaped. -/
def writeString (t : String) : Bytes :=
  [Char.ofNat 34] ++
    t.toList.flatMap (fun c =>
      if c.toNat = 34 ∨ c.toNat = 92 then [Char.ofNat 92, c] else [c]) ++
    [Char.ofNat 34]

/-- The items of a list, separated by commas. -/
def commaSep : List Bytes → Bytes
  | [] => []
  | [x] => x
  | x :: y :: ys => x ++ [','] ++ commaSep (y :: ys)

mutual

/-- The compact JSON text of a value. -/
def writeValue : Value → Bytes
  | Value.null => "null".toList
  | Value.bool true => "true".toList
  | Value.bool false => "false".toList
  | Value.num n => (toString n).toList
  | Value.str t => writeString t
  | Value.arr xs => ['['] ++ commaSep (writeElems xs) ++ [']']
  | Value.obj kvs => [Char.ofNat 123] ++ commaSep (writeMembers kvs) ++ [Char.ofNat 125]

def writeElems : List Value → List Bytes
  | [] => []
  | x :: xs => writeValue x :: writeElems xs

def writeMembers : List (String × Value) → List Bytes
  | [] => []
  | (k, x) :: kvs => (writeString k ++ [':'] ++ writeValue x) :: writeMembers kvs

end

/-- `json.Marshal(req)`: the fields in declaration order; a call without
parameters has a nil `Params`, written `null`. -/
def marshalRequest (req : Request) : Bytes :=
  [Char.ofNat 123] ++
    writeString "jsonrpc" ++ [':'] ++ writeString req.JSONRPC ++ [','] ++
    writeString "method" ++ [':'] ++ writeString req.Method ++ [','] ++
    writeString "id" ++ [':'] ++ (toString req.ID).toList ++ [','] ++
    writeString "params" ++ [':'] ++
    (if req.Params.isEmpty then "null".toList else writeValue (Value.arr req.Params)) ++
  [Char.ofNat 125]

end JSON

/-- A server that answers every request with the given body. -/
def replies (body : String) : HTTPClient → String → String → Bytes → PostResult :=
  fun _ _ _ _ => PostResult.ok { Body := { data := body.toList, err := none } }

/-- A transport on which every request fails with the given error and no
response. -/
def refuses (msg : String) : HTTPClient → String → String → Bytes → PostResult :=
  fun _ _ _ _ => PostResult.fail none (GoError.text msg)

/-- The world of a call with a `*string` destination whose JSON work is done by
the reader and writer above, over the given transport. -/
def jsonWorld (post : HTTPClient → String → String → Bytes → PostResult) : World String :=
  { Marshal := fun req => .ok (JSON.marshalRequest req)
    Post := post
    UnmarshalBase := JSON.unmarshalBase
    Unmarshal := JSON.unmarshalString }

/-- The client used in the scenarios: `NewClient("http://localhost:8545", nil)`. -/
def localhost : Client :=
  NewClient "http://localhost:8545" none

/-- The same client with its counter at `id`. -/
def clientAt (id : Int) : Client :=
  { localhost with id := id }

/-- The call made by `NetVersion`: `v := ""; c.CallMethod(&v, "net_version")`. -/
def netVersionCall (post : HTTPClient → String → String → Bytes → PostResult) : Call :=
  { D := String, W := jsonWorld post, v := "", method := "net_version", params := [] }

/-- Three calls of `NetVersion` with three different fates: the connection is
refused, the body is not JSON, the reply is well-formed. -/
def threeCalls : List Call :=
  [ netVersionCall (refuses "connection refused"),
    netVersionCall (replies "not json"),
    netVersionCall (replies "\x7b\"jsonrpc\":\"2.0\",\"id\":3,\"result\":\"3\"\x7d") ]

/-! ## Basic facts about `CallMethod` -/

theorem wrapInt64_of_inRange (x : Int) (hlo : minInt64 ≤ x) (hhi : x ≤ maxInt64) :
    wrapInt64 x = x := by
  unfold wrapInt64
  unfold minInt64 at hlo
  unfold maxInt64 at hhi
  omega

theorem CallMethod_req {D : Type} (W : World D) (c : Client) (v : D) (method : String)
    (params : List Value) :
    (CallMethod W c v method params).2.req =
      { JSONRPC := _VER_, Method := method, ID := wrapInt64 (c.id + 1), Params := params } := by
  unfold CallMethod
  simp only []
  repeat' split
  all_goals rfl

theorem CallMethod_id {D : Type} (W : World D) (c : Client) (v : D) (method : String)
    (params : List Value) :
    (CallMethod W c v method params).1.id = wrapInt64 (c.id + 1) := by
  unfold CallMethod
  simp only []
  repeat' split
  all_goals rfl

theorem CallMethod_ret {D : Type} (W : World D) (c : Client) (v : D) (method : String)
    (params : List Value) :
    (CallMethod W c v method params).2.ret =
      match W.Marshal (CallMethod W c v method params).2.req with
      | .error e => some e
      | .ok b =>
        match W.Post c.httpClient c.url "application/json" b with
        | .fail _ e => some e
        | .ok _ => none := by
  rw [CallMethod_req]
  unfold CallMethod
  simp only []
  repeat' split
  all_goals simp_all

theorem callIDs_eq_map (ks : List Call) :
    ∀ c : Client, minInt64 ≤ c.id → c.id + (ks.length : Int) ≤ maxInt64 →
      callIDs c ks = (List.range ks.length).map (fun (i : Nat) => c.id + 1 + (i : Int)) := by
  induction ks with
  | nil => intro c _ _; rfl
  | cons k ks ih =>
    intro c hlo hhi
    have hlen : ((k :: ks).length : Int) = (ks.length : Int) + 1 := by
      simp [List.length_cons]
    rw [hlen] at hhi
    have hw : wrapInt64 (c.id + 1) = c.id + 1 :=
      wrapInt64_of_inRange _ (by omega) (by omega)
    have hid : (CallMethod k.W c k.v k.method k.params).1.id = c.id + 1 := by
      rw [CallMethod_id, hw]
    have hrq : (CallMethod k.W c k.v k.method k.params).2.req.ID = c.id + 1 := by
      rw [CallMethod_req, hw]
    have ih1 := ih (CallMethod k.W c k.v k.method k.params).1
      (by rw [hid]; omega) (by rw [hid]; omega)
    simp only [callIDs, List.length_cons, List.range_succ_eq_map, List.map_cons,
      List.map_map]
    rw [hrq, ih1, hid]
    simp only [Nat.cast_zero, add_zero, List.cons.injEq, true_and]
    apply List.map_congr_left
    intro i _
    simp only [Function.comp_apply, Nat.cast_succ]
    ring

/-! ## The returned error -/

/-- C10: the error returned by `CallMethod` is the error of `json.Marshal` of the
request or, when that succeeds, the error of `httpClient.Post`, and nil when both
succeed, whatever the response body holds and whatever the decoders report. -/
theorem callMethod_returns_only_marshal_or_post_error {D : Type} (W : World D)
    (c : Client) (v : D) (method : String) (params : List Value) :
    (CallMethod W c v method params).2.ret =
      (match W.Marshal (CallMethod W c v method params).2.req with
      | .error e => some e
      | .ok b =>
        match W.Post c.httpClient c.url "application/json" b with
        | .fail _ e => some e
        | .ok _ => none) ∧
    ((CallMethod W c v method params).2.ret ≠ none ↔
      (∃ e, W.Marshal (CallMethod W c v method params).2.req = .error e) ∨
      ∃ b w e, W.Marshal (CallMethod W c v method params).2.req = .ok b ∧
        W.Post c.httpClient c.url "application/json" b = .fail w e) := by
  refine ⟨CallMethod_ret W c v method params, ?_⟩
  rw [CallMethod_ret]
  cases hm : W.Marshal (CallMethod W c v method params).2.req with
  | error e => simp
  | ok b =>
    cases hp : W.Post c.httpClient c.url "application/json" b with
    | ok w => simp [hp]
    | fail w e => simp [hp]

/-- C7: when the HTTP Post fails, `CallMethod` returns the transport's error, the
destination is as before, and nothing is read from a response body or decoded:
the only steps are the counter update, `json.Marshal`, the Post and the deferred
close of a response the transport may have handed back. -/
theorem callMethod_post_failure {D : Type} (W : World D) (c : Client) (v : D)
    (method : String) (params : List Value) (b : Bytes) (w : Option Response)
    (e : GoError)
    (hm : W.Marshal (CallMethod W c v method params).2.req = .ok b)
    (hp : W.Post c.httpClient c.url "application/json" b = .fail w e) :
    (CallMethod W c v method params).2.ret = some e ∧
    (CallMethod W c v method params).2.dest = v ∧
    (CallMethod W c v method params).2.trace =
      [Event.lock, Event.unlock, Event.marshal, Event.post] ++ deferred w ∧
    Event.readAll ∉ (CallMethod W c v method params).2.trace ∧
    Event.unmarshalBase ∉ (CallMethod W c v method params).2.trace ∧
    Event.unmarshalResult ∉ (CallMethod W c v method params).2.trace := by
  rw [CallMethod_req] at hm
  have hout : (CallMethod W c v method params).2 =
      { req := { JSONRPC := _VER_, Method := method, ID := wrapInt64 (c.id + 1),
                 Params := params },
        ret := some e, inner := none, dest := v,
        trace := [Event.lock, Event.unlock, Event.marshal, Event.post] ++ deferred w } := by
    simp only [CallMethod, hm, hp, List.cons_append, List.nil_append,
      List.append_assoc]
  rw [hout]
  refine ⟨rfl, rfl, rfl, ?_, ?_, ?_⟩ <;> cases w <;> simp [deferred]

/-- C7, at a transport that refuses the connection: the call made by `NetVersion`
on a new client returns that error and leaves the destination empty. -/
theorem callMethod_post_failure_witness :
    (CallMethod (jsonWorld (refuses "connection refused")) localhost ""
        "net_version" []).2.ret = some (GoError.text "connection refused") ∧
    (CallMethod (jsonWorld (refuses "connection refused")) localhost ""
        "net_version" []).2.dest = "" ∧
    (CallMethod (jsonWorld (refuses "connection refused")) localhost ""
        "net_version" []).2.trace =
      [Event.lock, Event.unlock, Event.marshal, Event.post] ++ deferred none ∧
    Event.readAll ∉ (CallMethod (jsonWorld (refuses "connection refused")) localhost ""
        "net_version" []).2.trace ∧
    Event.unmarshalBase ∉ (CallMethod (jsonWorld (refuses "connection refused"))
        localhost "" "net_version" []).2.trace ∧
    Event.unmarshalResult ∉ (CallMethod (jsonWorld (refuses "connection refused"))
        localhost "" "net_version" []).2.trace :=
  callMethod_post_failure (jsonWorld (refuses "connection refused")) localhost ""
    "net_version" []
    (JSON.marshalRequest
      (CallMethod (jsonWorld (refuses "connection refused")) localhost ""
        "net_version" []).2.req)
    none (GoError.text "connection refused") rfl rfl

/-! ## The destination -/

/-- C8: when the decoded envelope carries an id other than the request's, or a
`jsonrpc` other than "2.0", the destination is exactly as it was before the call
and the result payload is never decoded. -/
theorem callMethod_mismatch_leaves_destination {D : Type} (W : World D) (c : Client)
    (v : D) (method : String) (params : List Value) (b : Bytes) (w : Response)
    (body : Bytes) (parsed : ResponseBase)
    (hm : W.Marshal (CallMethod W c v method params).2.req = .ok b)
    (hp : W.Post c.httpClient c.url "application/json" b = .ok w)
    (hr : ReadAll w.Body = (body, none))
    (hu : W.UnmarshalBase body = .ok parsed)
    (hmis : parsed.ID ≠ (CallMethod W c v method params).2.req.ID ∨
      parsed.JSONRPC ≠ "2.0") :
    (CallMethod W c v method params).2.dest = v ∧
    Event.unmarshalResult ∉ (CallMethod W c v method params).2.trace := by
  rw [CallMethod_req] at hm hmis
  have hmis1 : parsed.ID ≠ wrapInt64 (c.id + 1) ∨ parsed.JSONRPC ≠ _VER_ := hmis
  cases hpe : parsed.Error with
  | some oe => simp [CallMethod, hm, hp, hr, hu, hpe]
  | none => simp [CallMethod, hm, hp, hr, hu, hpe, hmis1]

/-- C8, request id 3 answered with id 999 and a well-formed result: the
destination keeps the value it had. -/
theorem callMethod_mismatch_leaves_destination_witness :
    (CallMethod
        (jsonWorld (replies "\x7b\"jsonrpc\":\"2.0\",\"id\":999,\"result\":\"0x1\"\x7d"))
        (clientAt 2) "before" "net_version" []).2.dest = "before" ∧
    Event.unmarshalResult ∉ (CallMethod
        (jsonWorld (replies "\x7b\"jsonrpc\":\"2.0\",\"id\":999,\"result\":\"0x1\"\x7d"))
        (clientAt 2) "before" "net_version" []).2.trace :=
  callMethod_mismatch_leaves_destination
    (jsonWorld (replies "\x7b\"jsonrpc\":\"2.0\",\"id\":999,\"result\":\"0x1\"\x7d"))
    (clientAt 2) "before" "net_version" []
    (JSON.marshalRequest
      { JSONRPC := "2.0", Method := "net_version", ID := 3, Params := [] })
    { Body := { data := "\x7b\"jsonrpc\":\"2.0\",\"id\":999,\"result\":\"0x1\"\x7d".toList,
                err := none } }
    "\x7b\"jsonrpc\":\"2.0\",\"id\":999,\"result\":\"0x1\"\x7d".toList
    { JSONRPC := "2.0", ID := 999, Error := none, Result := "\"0x1\"".toList }
    rfl rfl rfl rfl (Or.inl (by decide))

/-- C4: when serialization and the Post succeed, the body is read and decodes to
an envelope without error object whose id is the request's and whose `jsonrpc`
is "2.0", and the result payload decodes into the destination, `CallMethod`
returns nil and the destination holds the value decoded from `result`. -/
theorem callMethod_success {D : Type} (W : World D) (c : Client) (v : D)
    (method : String) (params : List Value) (b : Bytes) (w : Response)
    (body : Bytes) (parsed : ResponseBase)
    (hm : W.Marshal (CallMethod W c v method params).2.req = .ok b)
    (hp : W.Post c.httpClient c.url "application/json" b = .ok w)
    (hr : ReadAll w.Body = (body, none))
    (hu : W.UnmarshalBase body = .ok parsed)
    (he : parsed.Error = none)
    (hid : parsed.ID = (CallMethod W c v method params).2.req.ID)
    (hver : parsed.JSONRPC = "2.0")
    (hd : (W.Unmarshal parsed.Result v).2 = none) :
    (CallMethod W c v method params).2.ret = none ∧
    (CallMethod W c v method params).2.inner = none ∧
    (CallMethod W c v method params).2.dest = (W.Unmarshal parsed.Result v).1 := by
  rw [CallMethod_req] at hm hid
  have hid1 : parsed.ID = wrapInt64 (c.id + 1) := hid
  have hver1 : parsed.JSONRPC = _VER_ := hver
  simp [CallMethod, hm, hp, hr, hu, he, hid1, hver1, hd]

/-- C4, the first call on a new client: `net_version` without parameters,
answered `{"jsonrpc":"2.0","id":1,"result":"3"}`, returns nil and leaves "3" in
the destination. -/
theorem callMethod_success_witness :
    (CallMethod
        (jsonWorld (replies "\x7b\"jsonrpc\":\"2.0\",\"id\":1,\"result\":\"3\"\x7d"))
        localhost "" "net_version" []).2.ret = none ∧
    (CallMethod
        (jsonWorld (replies "\x7b\"jsonrpc\":\"2.0\",\"id\":1,\"result\":\"3\"\x7d"))
        localhost "" "net_version" []).2.inner = none ∧
    (CallMethod
        (jsonWorld (replies "\x7b\"jsonrpc\":\"2.0\",\"id\":1,\"result\":\"3\"\x7d"))
        localhost "" "net_version" []).2.dest = "3" :=
  callMethod_success
    (jsonWorld (replies "\x7b\"jsonrpc\":\"2.0\",\"id\":1,\"result\":\"3\"\x7d"))
    localhost "" "net_version" []
    (JSON.marshalRequest
      { JSONRPC := "2.0", Method := "net_version", ID := 1, Params := [] })
    { Body := { data := "\x7b\"jsonrpc\":\"2.0\",\"id\":1,\"result\":\"3\"\x7d".toList,
                err := none } }
    "\x7b\"jsonrpc\":\"2.0\",\"id\":1,\"result\":\"3\"\x7d".toList
    { JSONRPC := "2.0", ID := 1, Error := none, Result := "\"3\"".toList }
    rfl rfl rfl rfl rfl rfl rfl rfl

/-! ## Response errors that do not reach the caller -/

/-- C1, evaluated at the scenario of the specification: request
`eth_getBalance ["0xabc","latest"]` with id 2, answered with the error object
`{"code":-32000,"message":"invalid address"}`.  The error object is decoded and
stored in the loop's own `e`, whose text is the server's message, but the
function returns nil. -/
theorem callMethod_drops_remote_error :
    (CallMethod
        (jsonWorld (replies
          "\x7b\"jsonrpc\":\"2.0\",\"id\":2,\"error\":\x7b\"code\":-32000,\"message\":\"invalid address\"\x7d\x7d"))
        (clientAt 1) "" "eth_getBalance" [Value.str "0xabc", Value.str "latest"]).2.req.ID
      = 2 ∧
    (CallMethod
        (jsonWorld (replies
          "\x7b\"jsonrpc\":\"2.0\",\"id\":2,\"error\":\x7b\"code\":-32000,\"message\":\"invalid address\"\x7d\x7d"))
        (clientAt 1) "" "eth_getBalance" [Value.str "0xabc", Value.str "latest"]).2.inner
      = some (GoError.object
          { Code := -32000, Message := "invalid address", Data := Value.null }) ∧
    (CallMethod
        (jsonWorld (replies
          "\x7b\"jsonrpc\":\"2.0\",\"id\":2,\"error\":\x7b\"code\":-32000,\"message\":\"invalid address\"\x7d\x7d"))
        (clientAt 1) "" "eth_getBalance" [Value.str "0xabc", Value.str "latest"]).2.inner.map
        GoError.Error
      = some "invalid address" ∧
    (CallMethod
        (jsonWorld (replies
          "\x7b\"jsonrpc\":\"2.0\",\"id\":2,\"error\":\x7b\"code\":-32000,\"message\":\"invalid address\"\x7d\x7d"))
        (clientAt 1) "" "eth_getBalance" [Value.str "0xabc", Value.str "latest"]).2.ret
      = none :=
  ⟨rfl, rfl, rfl, rfl⟩

/-- C2, evaluated at the scenario of the specification: the request has id 3 and
the reply carries id 999 with a well-formed result.  The loop's own `e` holds
the "RPC Specification error", but the function returns nil. -/
theorem callMethod_drops_mismatch_error :
    (CallMethod
        (jsonWorld (replies "\x7b\"jsonrpc\":\"2.0\",\"id\":999,\"result\":\"3\"\x7d"))
        (clientAt 2) "" "net_version" []).2.req.ID = 3 ∧
    (CallMethod
        (jsonWorld (replies "\x7b\"jsonrpc\":\"2.0\",\"id\":999,\"result\":\"3\"\x7d"))
        (clientAt 2) "" "net_version" []).2.inner
      = some (errorsNew "Error: RPC Specification error") ∧
    (CallMethod
        (jsonWorld (replies "\x7b\"jsonrpc\":\"2.0\",\"id\":999,\"result\":\"3\"\x7d"))
        (clientAt 2) "" "net_version" []).2.ret = none :=
  ⟨rfl, rfl, rfl⟩

/-- C5, evaluated at three replies to the first `net_version` call of a new
client: a body that is not JSON, an envelope without `result`, and a `result`
that is a number where the destination is a string.  Each time a decoding error
is stored in the loop's own `e`, the destination keeps its value, and the
function returns nil. -/
theorem callMethod_drops_decoding_errors :
    ((CallMethod (jsonWorld (replies "not json")) localhost "before"
        "net_version" []).2.ret = none ∧
      (CallMethod (jsonWorld (replies "not json")) localhost "before"
        "net_version" []).2.inner = some JSON.syntaxError ∧
      (CallMethod (jsonWorld (replies "not json")) localhost "before"
        "net_version" []).2.dest = "before") ∧
    ((CallMethod (jsonWorld (replies "\x7b\"jsonrpc\":\"2.0\",\"id\":1\x7d")) localhost
        "before" "net_version" []).2.ret = none ∧
      (CallMethod (jsonWorld (replies "\x7b\"jsonrpc\":\"2.0\",\"id\":1\x7d")) localhost
        "before" "net_version" []).2.inner = some JSON.endError ∧
      (CallMethod (jsonWorld (replies "\x7b\"jsonrpc\":\"2.0\",\"id\":1\x7d")) localhost
        "before" "net_version" []).2.dest = "before") ∧
    ((CallMethod (jsonWorld (replies "\x7b\"jsonrpc\":\"2.0\",\"id\":1,\"result\":5\x7d"))
        localhost "before" "net_version" []).2.ret = none ∧
      (CallMethod (jsonWorld (replies "\x7b\"jsonrpc\":\"2.0\",\"id\":1,\"result\":5\x7d"))
        localhost "before" "net_version" []).2.inner
        = some (JSON.typeError "string") ∧
      (CallMethod (jsonWorld (replies "\x7b\"jsonrpc\":\"2.0\",\"id\":1,\"result\":5\x7d"))
        localhost "before" "net_version" []).2.dest = "before") :=
  ⟨⟨rfl, rfl, rfl⟩, ⟨rfl, rfl, rfl⟩, ⟨rfl, rfl, rfl⟩⟩

/-! ## The id counter -/

/-- C3, as stated, fails already for one call on a new client: the counter holds
0, the only request built carries id 1, and 0 is not among the ids. -/
theorem callIDs_new_client_starts_at_one :
    callIDs localhost [netVersionCall (refuses "connection refused")] = [1] ∧
    ¬ (∀ x : Int,
        x ∈ callIDs localhost [netVersionCall (refuses "connection refused")] ↔
          localhost.id ≤ x ∧
          x ≤ localhost.id +
            (([netVersionCall (refuses "connection refused")].length : Nat) : Int) - 1) := by
  have h1 : callIDs localhost [netVersionCall (refuses "connection refused")] = [1] := rfl
  refine ⟨h1, ?_⟩
  intro h
  have h0 := (h 0).2 ⟨by decide, by decide⟩
  rw [h1] at h0
  simp at h0

/-- C3, amended: for a run of N invocations on a client whose counter holds
`initial`, with `initial + N` not beyond `math.MaxInt64`, the ids of the requests
built are `initial+1, ..., initial+N` in this order, whatever happens in each
call: no duplicates, no gaps. -/
theorem callIDs_consecutive (c : Client) (ks : List Call)
    (hlo : minInt64 ≤ c.id) (hhi : c.id + (ks.length : Int) ≤ maxInt64) :
    callIDs c ks = (List.range ks.length).map (fun (i : Nat) => c.id + 1 + (i : Int)) ∧
    (callIDs c ks).Nodup ∧
    ∀ x : Int, x ∈ callIDs c ks ↔ c.id + 1 ≤ x ∧ x ≤ c.id + (ks.length : Int) := by
  have h := callIDs_eq_map ks c hlo hhi
  refine ⟨h, ?_, ?_⟩
  · rw [h]
    refine List.Nodup.map ?_ (List.nodup_range _)
    intro i j hij
    simp only at hij
    omega
  · intro x
    rw [h]
    simp only [List.mem_map, List.mem_range]
    constructor
    · rintro ⟨i, hi, rfl⟩
      omega
    · intro hx
      refine ⟨(x - (c.id + 1)).toNat, ?_, ?_⟩ <;> omega

/-- C3 amended, on a new client with three calls of different fates: the ids are
1, 2, 3. -/
theorem callIDs_consecutive_witness :
    callIDs localhost threeCalls = [1, 2, 3] ∧
    (callIDs localhost threeCalls).Nodup ∧
    ∀ x : Int, x ∈ callIDs localhost threeCalls ↔
      localhost.id + 1 ≤ x ∧ x ≤ localhost.id + (threeCalls.length : Int) :=
  callIDs_consecutive localhost threeCalls (by decide) (by decide)

/-- C6, as stated, fails when the counter holds `math.MaxInt64`: `c.id++` wraps
to `math.MinInt64`, so the counter does not advance by one and the id of the
later of two requests is smaller than the id of the earlier one. -/
theorem counter_wraps_at_maxInt64 :
    (CallMethod (jsonWorld (refuses "connection refused")) (clientAt maxInt64) ""
        "net_version" []).1.id ≠ (clientAt maxInt64).id + 1 ∧
    (CallMethod (jsonWorld (refuses "connection refused")) (clientAt maxInt64) ""
        "net_version" []).1.id = minInt64 ∧
    ¬ ((CallMethod (jsonWorld (refuses "connection refused")) (clientAt (maxInt64 - 1)) ""
          "net_version" []).2.req.ID <
        (CallMethod (jsonWorld (refuses "connection refused"))
          (CallMethod (jsonWorld (refuses "connection refused")) (clientAt (maxInt64 - 1))
            "" "net_version" []).1
          "" "net_version" []).2.req.ID) := by
  refine ⟨?_, ?_, ?_⟩
  · decide
  · decide
  · decide

/-- C6, amended: as long as the counter stays within `int64`, every invocation
advances it by exactly one and builds its request with the new value, whatever
the library calls do, and the ids of the requests of a run of invocations on the
same client are strictly increasing. -/
theorem callMethod_advances_counter {D : Type} (W : World D) (c : Client) (v : D)
    (method : String) (params : List Value) (ks : List Call)
    (hlo : minInt64 ≤ c.id) (hhi : c.id + 1 + (ks.length : Int) ≤ maxInt64) :
    (CallMethod W c v method params).1.id = c.id + 1 ∧
    (CallMethod W c v method params).2.req.ID = c.id + 1 ∧
    (callIDs c ({ D := D, W := W, v := v, method := method, params := params } :: ks)).Pairwise
      (fun a b => a < b) := by
  have hw : wrapInt64 (c.id + 1) = c.id + 1 :=
    wrapInt64_of_inRange _ (by omega) (by omega)
  refine ⟨by rw [CallMethod_id, hw], by rw [CallMethod_req, hw], ?_⟩
  rw [callIDs_eq_map _ c hlo (by simp only [List.length_cons]; push_cast; omega)]
  rw [List.pairwise_map]
  refine List.Pairwise.imp ?_ (List.pairwise_lt_range _)
  intro i j hij
  omega

/-- C6 amended, on a new client: a call whose connection is refused followed by
two more calls. -/
theorem callMethod_advances_counter_witness :
    (CallMethod (jsonWorld (refuses "connection refused")) localhost ""
        "net_version" []).1.id = localhost.id + 1 ∧
    (CallMethod (jsonWorld (refuses "connection refused")) localhost ""
        "net_version" []).2.req.ID = localhost.id + 1 ∧
    (callIDs localhost
      ({ D := String, W := jsonWorld (refuses "connection refused"), v := "",
         method := "net_version", params := [] } :: threeCalls.tail)).Pairwise
      (fun a b => a < b) :=
  callMethod_advances_counter (jsonWorld (refuses "connection refused")) localhost ""
    "net_version" [] threeCalls.tail (by decide) (by decide)

end Eth
